import Mathlib

/-!
Verification of the salvo core algorithms against their specification.

This file gives a shallow embedding of the pure kernels of the salvo
test framework (scorer, cost estimation, judge vote aggregation,
early-stop predicate, retry classification loop, assertion normalizer,
tool-sequence matchers, scenario runner loop, single-trial execution)
and proves or refutes the specified properties.

Modelling conventions:
* Python floats are modelled as exact rationals.  The one place where
  float semantics is load bearing, the 6-decimal rounding in cost
  estimation, is modelled as exact decimal rounding half to even, the
  tie rule of Python round; the counterexamples below avoid ties so
  they are insensitive to the tie rule.
* Python dicts queried by string keys are modelled as association
  lists or as functions out of String.
* Exceptions are modelled with Except; async effects (sleeps, adapter
  network calls) are modelled by passing the observed outcomes in as
  explicit functions.
-/

/-- Result of evaluating a single assertion against a run
(models salvo.models.result.EvalResult; the free-form metadata map is
not modelled). -/
structure EvalResult where
  assertion_type : String
  score : ℚ
  passed : Bool
  weight : ℚ
  required : Bool
  details : String := ""
  deriving DecidableEq, Repr

/-- Weighted score from evaluation results
(models salvo.evaluation.scorer.compute_score). -/
def compute_score (eval_results : List EvalResult) (threshold : ℚ) :
    ℚ × Bool × Bool :=
  if eval_results = [] then (1, true, false)
  else
    let hard_fail := eval_results.any (fun r => r.required && !r.passed)
    let total_weight := (eval_results.map (fun r => r.weight)).sum
    if total_weight = 0 then (0, false, hard_fail)
    else
      let score := (eval_results.map (fun r => r.score * r.weight)).sum / total_weight
      let passed := decide (threshold ≤ score) && !hard_fail
      (score, passed, hard_fail)

/-- Per-million-token pricing for a single model
(models salvo.execution.cost.ModelPricing). -/
structure ModelPricing where
  input_per_million : ℚ
  output_per_million : ℚ
  deriving DecidableEq, Repr

/-- Static pricing table, USD per million tokens
(models salvo.execution.cost.PRICING_TABLE; 2.50 = 5/2 etc.). -/
def PRICING_TABLE : List (String × ModelPricing) :=
  [("gpt-4o", ⟨5/2, 10⟩),
   ("gpt-4o-mini", ⟨3/20, 3/5⟩),
   ("claude-sonnet-4-5", ⟨3, 15⟩),
   ("claude-haiku-4-5", ⟨1, 5⟩)]

/-- Aliases for dated model versions
(models salvo.execution.cost.MODEL_ALIASES). -/
def MODEL_ALIASES : List (String × String) :=
  [("claude-sonnet-4-5-20250929", "claude-sonnet-4-5"),
   ("claude-haiku-4-5-20241022", "claude-haiku-4-5")]

/-- Alias resolution, MODEL_ALIASES.get(model, model). -/
def resolve_model (model : String) : String :=
  (MODEL_ALIASES.lookup model).getD model

/-- Nearest integer, ties to even: the tie rule of Python round. -/
def round_half_even (q : ℚ) : ℤ :=
  if q - ⌊q⌋ < 1/2 then ⌊q⌋
  else if 1/2 < q - ⌊q⌋ then ⌊q⌋ + 1
  else if Even ⌊q⌋ then ⌊q⌋ else ⌊q⌋ + 1

/-- Rounding to 6 decimal places, models Python round(cost, 6). -/
def round6 (q : ℚ) : ℚ :=
  (round_half_even (q * 1000000) : ℚ) / 1000000

/-- The cost expression of estimate_cost before the final rounding
(models salvo.execution.cost.estimate_cost lines 57 to 67). -/
def estimate_cost_raw (model : String) (input_tokens output_tokens : ℕ) :
    Option ℚ :=
  match PRICING_TABLE.lookup (resolve_model model) with
  | none => none
  | some pricing => some
      ((input_tokens : ℚ) / 1000000 * pricing.input_per_million
        + (output_tokens : ℚ) / 1000000 * pricing.output_per_million)

/-- USD cost estimate rounded to 6 decimal places
(models salvo.execution.cost.estimate_cost). -/
def estimate_cost (model : String) (input_tokens output_tokens : ℕ) :
    Option ℚ :=
  (estimate_cost_raw model input_tokens output_tokens).map round6

/-- One step of the in_order pointer loop: advance the pointer ei into
expected when the current actual name matches expected[ei]
(models the loop body of
salvo.evaluation.evaluators.tool_sequence.match_in_order). -/
def in_order_step (expected : List String) (ei : ℕ) (a : String) : ℕ :=
  if h : ei < expected.length then (if a = expected[ei] then ei + 1 else ei) else ei

/-- The in_order tool-sequence matcher: linear scan of actual with a
pointer into expected; pass when the pointer reaches the end
(models salvo.evaluation.evaluators.tool_sequence.match_in_order,
pass/fail component; the diagnostic detail string is not modelled). -/
def match_in_order (actual expected : List String) : Bool :=
  if actual = [] ∧ expected ≠ [] then false
  else decide (actual.foldl (in_order_step expected) 0 = expected.length)

/-- Recursive form of the greedy subsequence scan, for reasoning. -/
def subseq_scan : List String → List String → Bool
  | _, [] => true
  | [], _ :: _ => false
  | a :: actual, e :: expected =>
    if a = e then subseq_scan actual expected else subseq_scan actual (e :: expected)

/-- Status of an individual trial execution
(models salvo.models.trial.TrialStatus). -/
inductive TrialStatus where
  | passed
  | failed
  | hard_fail
  | infra_error
  deriving DecidableEq, Repr

/-- Result of a single trial within an N-trial suite
(models salvo.models.trial.TrialResult; wall-clock latency, cost and
persistence ids are not modelled). -/
structure TrialResult where
  trial_number : ℕ
  status : TrialStatus
  score : ℚ
  passed : Bool
  eval_results : List EvalResult := []
  retries_used : ℕ := 0
  transient_error_types : List String := []
  error_message : Option String := none
  deriving DecidableEq, Repr

/-- The early-stop predicate of the trial runner
(models salvo.execution.trial_runner.TrialRunner._should_stop_early). -/
def should_stop_early (n_trials : ℕ) (threshold : ℚ)
    (completed : List TrialResult) : Bool :=
  if completed.any (fun r => decide (r.status = TrialStatus.hard_fail)) then true
  else
    let n_remaining : ℤ := (n_trials : ℤ) - completed.length
    if n_remaining ≤ 0 then false
    else
      let current_score_sum := (completed.map (fun r => r.score)).sum
      let best_possible_avg := (current_score_sum + (n_remaining : ℚ) * 1) / (n_trials : ℚ)
      decide (best_possible_avg < threshold)

/-- A Python exception as seen by the retry classifier: its type name,
its string form, whether it is a TimeoutError or ConnectionError
instance, and its optional status_code / status attributes
(models the exceptions handled by salvo.execution.retry). -/
structure PyExc where
  typeName : String
  message : String := ""
  is_timeout : Bool := false
  is_connection_error : Bool := false
  status_code : Option ℤ := none
  status : Option ℤ := none
  deriving DecidableEq, Repr

/-- HTTP status codes considered transient
(models salvo.execution.retry.TRANSIENT_STATUS_CODES). -/
def TRANSIENT_STATUS_CODES : List ℤ := [429, 500, 502, 503]

/-- The status attribute resolution
getattr(exc, "status_code", None) or getattr(exc, "status", None):
a status_code of None or 0 is falsy and falls through to status. -/
def resolved_status (e : PyExc) : Option ℤ :=
  match e.status_code with
  | some v => if v = 0 then e.status else some v
  | none => e.status

/-- Transient error classification
(models salvo.execution.retry._is_transient). -/
def is_transient (e : PyExc) : Bool :=
  if e.is_timeout || e.is_connection_error then true
  else
    match resolved_status e with
    | some v => decide (v ∈ TRANSIENT_STATUS_CODES)
    | none => false

/-- The retry loop of retry_with_backoff: remaining counts the
attempts still allowed after the current one, so is_last holds
exactly when remaining = 0; outcome i is the result of the i-th call
of coro_factory.  Backoff sleeps and jitter do not affect values and
are not modelled
(models the loop of salvo.execution.retry.retry_with_backoff). -/
def retry_go (outcome : ℕ → Except PyExc α) :
    ℕ → ℕ → ℕ → List String → Except PyExc (α × ℕ × List String)
  | remaining, attempt, retries_used, error_types =>
    match outcome attempt, remaining with
    | .ok r, _ => .ok (r, retries_used, error_types)
    | .error e, 0 => .error e
    | .error e, rem + 1 =>
      if is_transient e then
        retry_go outcome rem (attempt + 1) (retries_used + 1)
          (error_types ++ [e.typeName])
      else .error e

/-- Retry on transient errors, at most max_retries + 1 attempts
(models salvo.execution.retry.retry_with_backoff). -/
def retry_with_backoff (outcome : ℕ → Except PyExc α) (max_retries : ℕ) :
    Except PyExc (α × ℕ × List String) :=
  retry_go outcome max_retries 0 0 []

/-- Type name of the error of a failed attempt, used to state which
names the retry loop records. -/
def exc_name_of : Except PyExc α → String
  | .error e => e.typeName
  | .ok _ => ""

/-- A JSON-like Python value, as stored in raw assertion dicts. -/
inductive Value where
  | null
  | bool (b : Bool)
  | num (q : ℚ)
  | str (s : String)
  | list (xs : List Value)
  | obj (fields : List (String × Value))

/-- A raw assertion dict: string keys to values, unique keys, first
match wins on lookup. -/
abbrev RawAssertion := List (String × Value)

/-- The recognized operator keys
(models salvo.evaluation.normalizer.OPERATOR_KEYS; a Python set, but
only singletons survive normalization so iteration order is moot). -/
def OPERATOR_KEYS : List String :=
  ["eq", "ne", "gt", "gte", "lt", "lte", "contains", "regex"]

/-- Python str() as used for f-string interpolation of the tool name;
only string values are exercised by the repository, the other scalar
renderings approximate Python and container renderings are elided. -/
def py_str : Value → String
  | .str s => s
  | .null => "None"
  | .bool true => "True"
  | .bool false => "False"
  | .num q => toString q
  | .list _ => ""
  | .obj _ => ""

/-- An ASCII single quote, kept out of string literals. -/
def single_quote : String := String.singleton (Char.ofNat 39)

/-- The jmespath expression produced for tool_called sugar. -/
def tool_called_expression (tool : String) : String :=
  "tool_calls[?name==" ++ single_quote ++ tool ++ single_quote ++ "] | [0]"

/-- Expansion of tool_called sugar; a missing tool key is a KeyError
(models salvo.evaluation.normalizer._expand_tool_called). -/
def expand_tool_called (raw : RawAssertion) : Except String RawAssertion :=
  match List.lookup "tool" raw with
  | none => .error "KeyError: tool"
  | some toolv => .ok
      [("type", .str "jmespath"),
       ("expression", .str (tool_called_expression (py_str toolv))),
       ("operator", .str "exists"),
       ("value", .null),
       ("weight", (List.lookup "weight" raw).getD (.num 1)),
       ("required", (List.lookup "required" raw).getD (.bool false))]

/-- Expansion of output_contains sugar; a missing value key is a
KeyError (models salvo.evaluation.normalizer._expand_output_contains). -/
def expand_output_contains (raw : RawAssertion) : Except String RawAssertion :=
  match List.lookup "value" raw with
  | none => .error "KeyError: value"
  | some v => .ok
      [("type", .str "jmespath"),
       ("expression", .str "response.content"),
       ("operator", .str "contains"),
       ("value", v),
       ("weight", (List.lookup "weight" raw).getD (.num 1)),
       ("required", (List.lookup "required" raw).getD (.bool false))]

/-- Shorthand-to-canonical assertion normalization
(models salvo.evaluation.normalizer.normalize_assertion).  A dict
with a type key dispatches on that key: the two sugar types expand,
any other hashable type value passes through unchanged, an unhashable
type value is a TypeError.  A dict without a type key must contain
exactly one operator key and is rebuilt in canonical jmespath form. -/
def normalize_assertion (raw : RawAssertion) : Except String RawAssertion :=
  match List.lookup "type" raw with
  | some tv =>
    match tv with
    | .str t =>
      if t = "tool_called" then expand_tool_called raw
      else if t = "output_contains" then expand_output_contains raw
      else .ok raw
    | .list _ => .error "TypeError: unhashable type value"
    | .obj _ => .error "TypeError: unhashable type value"
    | _ => .ok raw
  | none =>
    match OPERATOR_KEYS.filter (fun k => (List.lookup k raw).isSome) with
    | [] => .error "ValueError: no operator key"
    | [op] => .ok
        [("type", .str "jmespath"),
         ("expression", (List.lookup "path" raw).getD (.str "response.content")),
         ("operator", .str op),
         ("value", (List.lookup op raw).getD .null),
         ("weight", (List.lookup "weight" raw).getD (.num 1)),
         ("required", (List.lookup "required" raw).getD (.bool false))]
    | _ => .error "ValueError: multiple operator keys"

/-- A parsed judge vote: per criterion name, the clamped score when
the vote answered that criterion.  This models the Python per-vote
dict of name to score/reasoning entries; a criterion whose entry is
missing or malformed is none. -/
abbrev Vote := String → Option ℚ

/-- One judge criterion: name, description, weight
(models the criterion dicts consumed by
salvo.evaluation.judge.aggregation.aggregate_k_votes). -/
structure Criterion where
  name : String
  description : String := ""
  weight : ℚ
  deriving DecidableEq, Repr

/-- Insertion into an ascending-sorted list of rationals. -/
def insert_sorted (x : ℚ) : List ℚ → List ℚ
  | [] => [x]
  | y :: ys => if x ≤ y then x :: y :: ys else y :: insert_sorted x ys

/-- Ascending insertion sort, models the sort inside
statistics.median. -/
def sort_asc (l : List ℚ) : List ℚ := l.foldr insert_sorted []

/-- Python statistics.median: sort; odd length takes the middle
element, even length averages the two middle elements.  Only applied
to non-empty lists by the callers here, as in the source. -/
def statistics_median (l : List ℚ) : ℚ :=
  if l.length % 2 = 1 then (sort_asc l).getD (l.length / 2) 0
  else ((sort_asc l).getD (l.length / 2 - 1) 0 + (sort_asc l).getD (l.length / 2) 0) / 2

/-- The inner loop of the per-criterion collection: one vote visits
every criterion in order and appends its score for that criterion
name, when present, to the dict entry of that name
(models aggregate_k_votes lines 43 to 47, the inner for). -/
def per_criterion_step (criteria : List Criterion) (vote : Vote)
    (d : String → List ℚ) : String → List ℚ :=
  match criteria with
  | [] => d
  | c :: cs =>
    per_criterion_step cs vote
      (match vote c.name with
       | some s => fun n => if n = c.name then d n ++ [s] else d n
       | none => d)

/-- The outer loop of the per-criterion collection over all votes. -/
def per_criterion_fold (criteria : List Criterion) (k_results : List Vote)
    (d : String → List ℚ) : String → List ℚ :=
  match k_results with
  | [] => d
  | v :: vs => per_criterion_fold criteria vs (per_criterion_step criteria v d)

/-- The per_criterion dict of aggregate_k_votes, as a function from
criterion name to collected scores; names never initialized are read
as the empty list, matching the dict initialized to empty lists. -/
def per_criterion_of (k_results : List Vote) (criteria : List Criterion) :
    String → List ℚ :=
  per_criterion_fold criteria k_results (fun _ => [])

/-- The reported median for a criterion name:
statistics.median(scores) if scores else 0.0. -/
def criterion_median (k_results : List Vote) (criteria : List Criterion)
    (name : String) : ℚ :=
  if per_criterion_of k_results criteria name = [] then 0
  else statistics_median (per_criterion_of k_results criteria name)

/-- One vote weighted total: sum over criteria of score times weight,
missing criterion contributing 0
(models aggregate_k_votes lines 77 to 82). -/
def vote_weighted_total (criteria : List Criterion) (vote : Vote) : ℚ :=
  (criteria.map (fun c =>
    match vote c.name with
    | some s => s * c.weight
    | none => 0)).sum

/-- Whether one vote counts as a pass: its weighted average, 0 when
the total weight is not positive, reaches the threshold
(models aggregate_k_votes lines 84 to 86). -/
def judge_vote_passes (criteria : List Criterion) (threshold : ℚ)
    (vote : Vote) : Bool :=
  decide (threshold ≤
    (if 0 < (criteria.map (fun c => c.weight)).sum
     then vote_weighted_total criteria vote / (criteria.map (fun c => c.weight)).sum
     else 0))

/-- k-vote aggregation: per-criterion medians, weight-weighted overall
score, strict-majority pass (models
salvo.evaluation.judge.aggregation.aggregate_k_votes; the returned
triple is (overall_score, passed, per_criterion_details) with each
detail (name, median_score, all_scores, weight)). -/
def aggregate_k_votes (k_results : List Vote) (criteria : List Criterion)
    (threshold : ℚ) : ℚ × Bool × List (String × ℚ × List ℚ × ℚ) :=
  match k_results with
  | [] => (0, false, [])
  | _ :: _ =>
    (if (criteria.map (fun c => c.weight)).sum = 0 then 0
     else (criteria.map (fun c => criterion_median k_results criteria c.name * c.weight)).sum /
       (criteria.map (fun c => c.weight)).sum,
     decide (((k_results.length : ℚ) / 2) <
       ((k_results.filter (judge_vote_passes criteria threshold)).length : ℚ)),
     criteria.map (fun c =>
       (c.name, criterion_median k_results criteria c.name,
        per_criterion_of k_results criteria c.name, c.weight)))

/-- The two criteria of the worked judge example: accuracy of weight
1.0 and clarity of weight 0.5. -/
def wJudgeCriteria : List Criterion :=
  [⟨"accuracy", "", 1⟩, ⟨"clarity", "", 1/2⟩]

/-- First vote of the worked judge example. -/
def wJudgeVote1 : Vote := fun n =>
  if n = "accuracy" then some (9/10) else if n = "clarity" then some (9/10) else none

/-- Second vote of the worked judge example. -/
def wJudgeVote2 : Vote := fun n =>
  if n = "accuracy" then some (9/10) else if n = "clarity" then some (4/5) else none

/-- Third vote of the worked judge example. -/
def wJudgeVote3 : Vote := fun n =>
  if n = "accuracy" then some (3/10) else if n = "clarity" then some (1/5) else none

/-- The three votes of the worked judge example. -/
def wJudgeVotes : List Vote := [wJudgeVote1, wJudgeVote2, wJudgeVote3]

/-- Token usage counts from a single adapter turn
(models salvo.adapters.base.TokenUsage). -/
structure TokenUsage where
  input_tokens : ℕ := 0
  output_tokens : ℕ := 0
  total_tokens : ℕ := 0
  deriving DecidableEq, Repr

/-- A tool call extracted from the model response
(models salvo.adapters.base.ToolCallResult). -/
structure ToolCallRes where
  id : String
  name : String
  arguments : List (String × Value) := []

/-- Result of one send_turn adapter call (models
salvo.adapters.base.AdapterTurnResult; the opaque raw_response kept
for diagnostics is not modelled). -/
structure AdapterTurnResult where
  content : Option String
  tool_calls : List ToolCallRes
  usage : TokenUsage
  finish_reason : String

/-- A message in the conversation history
(models salvo.adapters.base.Message). -/
structure Message where
  role : String
  content : Option String := none
  tool_calls : Option (List ToolCallRes) := none
  tool_call_id : Option String := none
  tool_name : Option String := none

/-- The tool_result messages appended for the tool calls of one turn;
a call with no mock raises ToolMockNotFoundError.  The mock_responses
map carries the serialized content (json.dumps for dict mocks, str
otherwise), as serialization does not affect the claims
(models the inner for of salvo.execution.runner.ScenarioRunner.run). -/
def tool_result_messages (mock_responses : List (String × String)) :
    List ToolCallRes → Except String (List Message)
  | [] => .ok []
  | tc :: tcs =>
    match List.lookup tc.name mock_responses with
    | none => .error ("ToolMockNotFoundError: " ++ tc.name)
    | some mock_content =>
      match tool_result_messages mock_responses tcs with
      | .error e => .error e
      | .ok rest => .ok
          ({ role := "tool_result", content := some mock_content,
             tool_call_id := some tc.id, tool_name := some tc.name } :: rest)

/-- Mutable state of the multi-turn loop: conversation, accumulated
usage, recorded tool calls, turn count, last adapter result. -/
structure RunLoopState where
  messages : List Message
  usage : TokenUsage
  all_tool_calls : List ToolCallRes
  turn_count : ℕ
  last : Option AdapterTurnResult

/-- The multi-turn loop of ScenarioRunner.run: up to fuel iterations,
each calling the adapter on the current history, accumulating the
three token counters independently, appending the assistant message,
stopping on no tool calls, else servicing every tool call with its
mock and recording the calls
(models salvo.execution.runner.ScenarioRunner.run lines 123 to 175). -/
def run_loop (adapter : List Message → AdapterTurnResult)
    (mock_responses : List (String × String)) :
    ℕ → RunLoopState → Except String RunLoopState
  | 0, st => .ok st
  | fuel + 1, st =>
    let result := adapter st.messages
    let st2 : RunLoopState :=
      { messages := st.messages ++
          [{ role := "assistant", content := result.content,
             tool_calls := if result.tool_calls.isEmpty then none
               else some result.tool_calls }],
        usage :=
          { input_tokens := st.usage.input_tokens + result.usage.input_tokens,
            output_tokens := st.usage.output_tokens + result.usage.output_tokens,
            total_tokens := st.usage.total_tokens + result.usage.total_tokens },
        all_tool_calls := st.all_tool_calls,
        turn_count := st.turn_count + 1,
        last := some result }
    if result.tool_calls.isEmpty then .ok st2
    else
      match tool_result_messages mock_responses result.tool_calls with
      | .error e => .error e
      | .ok trs =>
        run_loop adapter mock_responses fuel
          { st2 with
            messages := st2.messages ++ trs,
            all_tool_calls := st2.all_tool_calls ++ result.tool_calls }

/-- The captured run trace (models salvo.execution.trace.RunTrace;
wall-clock latency, timestamp, provider string, scenario hash and
resolved extras are effectful or out of scope here and not
modelled). -/
structure RunTrace where
  messages : List Message
  tool_calls_made : List ToolCallRes
  turn_count : ℕ
  input_tokens : ℕ
  output_tokens : ℕ
  total_tokens : ℕ
  final_content : Option String
  finish_reason : String
  model : String
  cost_usd : Option ℚ
  max_turns_hit : Bool

/-- The initial message list of a run: optional system prompt (an
empty one is falsy in Python and skipped), then the user prompt
(models ScenarioRunner.run lines 90 to 94). -/
def initial_state (system_prompt : Option String) (prompt : String) :
    RunLoopState :=
  { messages :=
      (match system_prompt with
       | some sp => if sp = "" then []
         else [{ role := "system", content := some sp }]
       | none => []) ++ [{ role := "user", content := some prompt }],
    usage := ⟨0, 0, 0⟩, all_tool_calls := [], turn_count := 0, last := none }

/-- One end-to-end scenario conversation: initial messages, the
multi-turn loop, then the trace assembly
(models salvo.execution.runner.ScenarioRunner.run). -/
def scenario_runner_run (adapter : List Message → AdapterTurnResult)
    (system_prompt : Option String) (prompt : String)
    (mock_responses : List (String × String)) (max_turns : ℕ)
    (model : String) : Except String RunTrace :=
  match run_loop adapter mock_responses max_turns
    (initial_state system_prompt prompt) with
  | .error e => .error e
  | .ok st => .ok
      { messages := st.messages,
        tool_calls_made := st.all_tool_calls,
        turn_count := st.turn_count,
        input_tokens := st.usage.input_tokens,
        output_tokens := st.usage.output_tokens,
        total_tokens := st.usage.total_tokens,
        final_content := match st.last with | some r => r.content | none => none,
        finish_reason := match st.last with | some r => r.finish_reason | none => "error",
        model := model,
        cost_usd := estimate_cost model st.usage.input_tokens st.usage.output_tokens,
        max_turns_hit := decide (max_turns ≤ st.turn_count) &&
          (match st.last with | some r => !r.tool_calls.isEmpty | none => false) }

/-- Number of assistant-role messages. -/
def assistant_count (msgs : List Message) : ℕ :=
  msgs.countP (fun m => decide (m.role = "assistant"))

/-- A well-behaved adapter for the C9 witness: one final answer with
usage (10, 5, 15). -/
def consistent_adapter : List Message → AdapterTurnResult :=
  fun _ => ⟨some "Hi", [], ⟨10, 5, 15⟩, "stop"⟩

/-- The trace of the C9 witness run. -/
def witness_c9_trace : RunTrace :=
  match scenario_runner_run consistent_adapter none "Hello" [] 10 "gpt-4o" with
  | .ok t => t
  | .error _ => ⟨[], [], 0, 0, 0, 0, none, "error", "", none, false⟩

/-- Single-trial execution: run the scenario inside the retry
wrapper, evaluate the trace, derive the status; any exception
escaping the retry wrapper becomes an infra_error TrialResult
(models salvo.execution.trial_runner.TrialRunner._execute_single_trial;
isolation directories, persistence, judge-config injection and
wall-clock timing are effectful and outside the claims, and the
assertion evaluation pipeline is passed in as a function). -/
def execute_single_trial (trial_num : ℕ) (max_retries : ℕ)
    (run_outcome : ℕ → Except PyExc RunTrace)
    (evaluate_results : RunTrace → List EvalResult) (threshold : ℚ) :
    TrialResult :=
  match retry_with_backoff run_outcome max_retries with
  | .ok (trace, retries_used, error_types) =>
    let eval_results := evaluate_results trace
    let score := (compute_score eval_results threshold).1
    let passed := (compute_score eval_results threshold).2.1
    let hard_fail := eval_results.any (fun r => r.required && !r.passed)
    { trial_number := trial_num,
      status := if hard_fail then TrialStatus.hard_fail
        else if passed then TrialStatus.passed else TrialStatus.failed,
      score := score,
      passed := passed,
      eval_results := eval_results,
      retries_used := retries_used,
      transient_error_types := error_types,
      error_message := none }
  | .error exc =>
    { trial_number := trial_num,
      status := TrialStatus.infra_error,
      score := 0,
      passed := false,
      eval_results := [],
      retries_used := max_retries,
      transient_error_types := [exc.typeName],
      error_message := some exc.message }

/-- The C10 witness outcome sequence: two transient failures, then a
non-transient ValueError. -/
def w10_outcome : ℕ → Except PyExc RunTrace := fun i =>
  if i = 0 then .error ⟨"TimeoutError", "timed out", true, false, none, none⟩
  else if i = 1 then .error ⟨"ConnectionError", "conn reset", false, true, none, none⟩
  else .error ⟨"ValueError", "bad payload", false, false, none, none⟩

/-- Claim C1: compute_score returns (1.0, true, false) on the empty
list; on a non-empty list of total weight 0 it returns score 0 and
passed false; otherwise the score is the weight-weighted mean of the
individual scores and passed holds exactly when the score reaches the
threshold and no required result failed. -/
theorem compute_score_correct (rs : List EvalResult) (t : ℚ) :
    (rs = [] → compute_score rs t = (1, true, false)) ∧
    (rs ≠ [] → (rs.map (fun r => r.weight)).sum = 0 →
      (compute_score rs t).1 = 0 ∧ (compute_score rs t).2.1 = false) ∧
    (rs ≠ [] → (rs.map (fun r => r.weight)).sum ≠ 0 →
      (compute_score rs t).1 =
        (rs.map (fun r => r.score * r.weight)).sum / (rs.map (fun r => r.weight)).sum ∧
      ((compute_score rs t).2.1 = true ↔
        t ≤ (compute_score rs t).1 ∧
          ¬ ∃ r ∈ rs, r.required = true ∧ r.passed = false)) := by
  refine ⟨fun h => by simp [compute_score, h], fun h hw => ?_, fun h hw => ?_⟩
  · simp [compute_score, h, hw]
  · have hsc : (compute_score rs t).1 =
        (rs.map (fun r => r.score * r.weight)).sum / (rs.map (fun r => r.weight)).sum := by
      simp [compute_score, h, hw]
    refine ⟨hsc, ?_⟩
    have hpass : (compute_score rs t).2.1 =
        (decide (t ≤ (rs.map (fun r => r.score * r.weight)).sum /
            (rs.map (fun r => r.weight)).sum) &&
          !(rs.any (fun r => r.required && !r.passed))) := by
      simp [compute_score, h, hw]
    rw [hpass, hsc]
    constructor
    · intro hb
      have h1 := (Bool.and_eq_true _ _).mp hb
      refine ⟨of_decide_eq_true h1.1, ?_⟩
      rintro ⟨r, hr, hreq, hpa⟩
      have : rs.any (fun r => r.required && !r.passed) = true := by
        simp only [List.any_eq_true]
        exact ⟨r, hr, by simp [hreq, hpa]⟩
      simp [this] at h1
    · rintro ⟨hle, hnone⟩
      have hany : rs.any (fun r => r.required && !r.passed) = false := by
        by_contra hne
        have := List.any_eq_true.mp (eq_true_of_ne_false hne)
        obtain ⟨r, hr, hb⟩ := this
        have h1 := (Bool.and_eq_true _ _).mp hb
        exact hnone ⟨r, hr, h1.1, by simpa using h1.2⟩
      simp [hany, hle]

/-- Witness for C1: the non-degenerate branch evaluated on a concrete
two-element result list. -/
theorem compute_score_correct_witness :
    (compute_score
        [⟨"jmespath", 1, true, 1, false, ""⟩, ⟨"jmespath", 0, false, 1, false, ""⟩]
        (1/4)).1 = 1/2 := by
  have h := (compute_score_correct
      [⟨"jmespath", 1, true, 1, false, ""⟩, ⟨"jmespath", 0, false, 1, false, ""⟩]
      (1/4)).2.2 (by decide) (by norm_num)
  rw [h.1]
  norm_num

/-- Counterexample for Claim C2: a single result of weight 0 that is
not a failed required assertion, at threshold 0, yields passed =
false, refuting the claim that every trial with no failed required
assertion passes at threshold 0. -/
theorem c2_zero_weight_counterexample :
    (¬ ∃ r ∈ [(⟨"jmespath", 1, true, 0, false, ""⟩ : EvalResult)],
        r.required = true ∧ r.passed = false) ∧
    (compute_score [⟨"jmespath", 1, true, 0, false, ""⟩] 0).2.1 = false := by
  constructor
  · rintro ⟨r, hr, hreq, hpa⟩
    simp only [List.mem_singleton] at hr
    subst hr
    simp at hreq
  · simp [compute_score]

/-- Claim C2 amended: with threshold 0, every result list with no
failed required assertion passes, provided every score and weight is
nonnegative and either the list is empty or the total weight is
positive (the code returns passed = false for a non-empty list of
total weight 0). -/
theorem compute_score_threshold_zero (rs : List EvalResult)
    (hreq : ∀ r ∈ rs, ¬(r.required = true ∧ r.passed = false))
    (hs : ∀ r ∈ rs, 0 ≤ r.score) (hw : ∀ r ∈ rs, 0 ≤ r.weight)
    (hpos : rs = [] ∨ 0 < (rs.map (fun r => r.weight)).sum) :
    (compute_score rs 0).2.1 = true := by
  rcases eq_or_ne rs [] with h | h
  · simp [compute_score, h]
  · rcases hpos with h0 | hpos
    · exact absurd h0 h
    have hwne : (rs.map (fun r => r.weight)).sum ≠ 0 := ne_of_gt hpos
    have hany : rs.any (fun r => r.required && !r.passed) = false := by
      by_contra hne
      obtain ⟨r, hr, hb⟩ := List.any_eq_true.mp (eq_true_of_ne_false hne)
      have h1 := (Bool.and_eq_true _ _).mp hb
      exact hreq r hr ⟨h1.1, by simpa using h1.2⟩
    have hnum : 0 ≤ (rs.map (fun r => r.score * r.weight)).sum := by
      refine List.sum_nonneg ?_
      intro x hx
      obtain ⟨r, hr, hrx⟩ := List.mem_map.mp hx
      exact hrx ▸ mul_nonneg (hs r hr) (hw r hr)
    have hdiv : (0 : ℚ) ≤
        (rs.map (fun r => r.score * r.weight)).sum / (rs.map (fun r => r.weight)).sum :=
      div_nonneg hnum (le_of_lt hpos)
    simp [compute_score, h, hwne, hany, hdiv]

/-- Witness for the amended C2: a concrete one-element list with
positive weight and no failed required assertion passes at
threshold 0. -/
theorem compute_score_threshold_zero_witness :
    (compute_score [⟨"jmespath", 1/2, false, 1, false, ""⟩] 0).2.1 = true := by
  refine compute_score_threshold_zero _ ?_ ?_ ?_ ?_
  · rintro r hr ⟨hreq, hpa⟩
    simp only [List.mem_singleton] at hr
    subst hr
    simp at hreq
  · intro r hr
    simp only [List.mem_singleton] at hr
    subst hr
    norm_num
  · intro r hr
    simp only [List.mem_singleton] at hr
    subst hr
    norm_num
  · right
    norm_num

lemma round_half_even_low (q : ℚ) (n : ℤ) (h0 : (n : ℚ) ≤ q)
    (h1 : q < n + 1/2) : round_half_even q = n := by
  have hf : ⌊q⌋ = n := Int.floor_eq_iff.mpr ⟨h0, by linarith⟩
  unfold round_half_even
  rw [hf, if_pos (show q - (n : ℚ) < 1/2 by linarith)]

lemma round_half_even_high (q : ℚ) (n : ℤ) (h0 : (n : ℚ) + 1/2 < q)
    (h1 : q < n + 1) : round_half_even q = n + 1 := by
  have hf : ⌊q⌋ = n := Int.floor_eq_iff.mpr ⟨by linarith, by linarith⟩
  unfold round_half_even
  rw [hf, if_neg (show ¬(q - (n : ℚ) < 1/2) by linarith),
    if_pos (show (1:ℚ)/2 < q - (n : ℚ) by linarith)]

/-- Counterexample for Claim C3: estimate_cost rounds to 6 decimal
places, so it is not exactly additive: for gpt-4o-mini, 2 input
tokens cost (rounds to) 0 USD while 4 = 2 + 2 input tokens cost
0.000001 USD, and 0.000001 is not 0 + 0. -/
theorem c3_rounding_counterexample :
    estimate_cost "gpt-4o-mini" 2 0 = some 0 ∧
    estimate_cost "gpt-4o-mini" 4 0 = some (1/1000000) ∧
    (1/1000000 : ℚ) ≠ 0 + 0 := by
  have hl : PRICING_TABLE.lookup (resolve_model "gpt-4o-mini") = some ⟨3/20, 3/5⟩ := by rfl
  have h2 : estimate_cost "gpt-4o-mini" 2 0 =
      some (round6 ((2 : ℚ) / 1000000 * (3/20) + (0 : ℚ) / 1000000 * (3/5))) := by
    simp [estimate_cost, estimate_cost_raw, hl]
  have h4 : estimate_cost "gpt-4o-mini" 4 0 =
      some (round6 ((4 : ℚ) / 1000000 * (3/20) + (0 : ℚ) / 1000000 * (3/5))) := by
    simp [estimate_cost, estimate_cost_raw, hl]
  have e2 : ((2 : ℚ) / 1000000 * (3/20) + (0 : ℚ) / 1000000 * (3/5)) = 3/10000000 := by
    norm_num
  have e4 : ((4 : ℚ) / 1000000 * (3/20) + (0 : ℚ) / 1000000 * (3/5)) = 6/10000000 := by
    norm_num
  have r2 : round6 (3/10000000 : ℚ) = 0 := by
    unfold round6
    rw [show ((3:ℚ)/10000000 * 1000000) = 3/10 by norm_num,
      round_half_even_low (3/10 : ℚ) 0 (by norm_num) (by norm_num)]
    norm_num
  have r4 : round6 (6/10000000 : ℚ) = 1/1000000 := by
    unfold round6
    rw [show ((6:ℚ)/10000000 * 1000000) = 3/5 by norm_num,
      round_half_even_high (3/5 : ℚ) 0 (by norm_num) (by norm_num)]
    norm_num
  refine ⟨?_, ?_, by norm_num⟩
  · rw [h2, e2, r2]
  · rw [h4, e4, r4]

/-- Claim C3 amended: per model, the cost expression before the final
6-decimal rounding is exactly additive in the token counts; the
rounded estimate_cost can differ from the sum of rounded parts only
by the rounding, as the counterexample shows. -/
theorem estimate_cost_raw_additive (model : String) (ai ao bi bo : ℕ)
    (ca cb : ℚ)
    (ha : estimate_cost_raw model ai ao = some ca)
    (hb : estimate_cost_raw model bi bo = some cb) :
    estimate_cost_raw model (ai + bi) (ao + bo) = some (ca + cb) := by
  rcases hpl : PRICING_TABLE.lookup (resolve_model model) with _ | p
  · rw [estimate_cost_raw, hpl] at ha
    cases ha
  · rw [estimate_cost_raw, hpl] at ha hb
    rw [estimate_cost_raw, hpl]
    have hca := Option.some_injective _ ha
    have hcb := Option.some_injective _ hb
    rw [← hca, ← hcb]
    exact congrArg some (by push_cast; ring)

/-- Witness for the amended C3 at the aliased model
claude-haiku-4-5-20241022 with a = (1000000, 0) and b = (0, 1000000):
1 USD + 5 USD = 6 USD. -/
theorem estimate_cost_raw_additive_witness :
    estimate_cost_raw "claude-haiku-4-5-20241022" (1000000 + 0) (0 + 1000000) =
      some (1 + 5) := by
  have hl : PRICING_TABLE.lookup (resolve_model "claude-haiku-4-5-20241022") =
      some ⟨1, 5⟩ := by rfl
  have ha : estimate_cost_raw "claude-haiku-4-5-20241022" 1000000 0 = some 1 := by
    rw [estimate_cost_raw, hl]
    norm_num
  have hb : estimate_cost_raw "claude-haiku-4-5-20241022" 0 1000000 = some 5 := by
    rw [estimate_cost_raw, hl]
    norm_num
  exact estimate_cost_raw_additive "claude-haiku-4-5-20241022" 1000000 0 0 1000000 1 5 ha hb

lemma subseq_scan_iff_sublist :
    ∀ (actual expected : List String),
      subseq_scan actual expected = true ↔ List.Sublist expected actual := by
  intro actual
  induction actual with
  | nil =>
    intro expected
    cases expected with
    | nil => simp [subseq_scan]
    | cons e es => simp [subseq_scan]
  | cons a as ih =>
    intro expected
    cases expected with
    | nil => simp [subseq_scan, List.nil_sublist]
    | cons e es =>
      by_cases hae : a = e
      · subst hae
        rw [subseq_scan, if_pos rfl, ih es]
        exact List.cons_sublist_cons.symm
      · rw [subseq_scan, if_neg hae, ih (e :: es)]
        constructor
        · exact fun h => h.cons a
        · intro h
          cases h with
          | cons _ h => exact h
          | cons₂ _ h => exact absurd rfl hae

lemma foldl_in_order_step_at_len (expected : List String) :
    ∀ as : List String,
      as.foldl (in_order_step expected) expected.length = expected.length := by
  intro as
  induction as with
  | nil => rfl
  | cons a as ih =>
    have hstep : in_order_step expected expected.length a = expected.length := by
      unfold in_order_step
      rw [dif_neg (lt_irrefl expected.length)]
    rw [List.foldl_cons, hstep, ih]

lemma foldl_in_order_step_scan (expected : List String) :
    ∀ (actual : List String) (ei : ℕ), ei ≤ expected.length →
      (actual.foldl (in_order_step expected) ei = expected.length ↔
        subseq_scan actual (expected.drop ei) = true) := by
  intro actual
  induction actual with
  | nil =>
    intro ei hle
    rcases eq_or_lt_of_le hle with heq | hlt
    · subst heq
      simp [List.drop_eq_nil_iff.mpr (le_refl _), subseq_scan]
    · have hne : expected.drop ei ≠ [] := by
        rw [Ne, List.drop_eq_nil_iff]
        omega
      rcases hd : expected.drop ei with _ | ⟨x, xs⟩
      · exact absurd hd hne
      · simp only [List.foldl_nil, subseq_scan]
        constructor
        · intro h
          omega
        · intro h
          cases h
  | cons a as ih =>
    intro ei hle
    rcases eq_or_lt_of_le hle with heq | hlt
    · subst heq
      have hstep : in_order_step expected expected.length a = expected.length := by
        unfold in_order_step
        rw [dif_neg (lt_irrefl expected.length)]
      rw [List.foldl_cons, hstep, foldl_in_order_step_at_len,
        List.drop_eq_nil_iff.mpr (le_refl _)]
      simp [subseq_scan]
    · rw [List.drop_eq_getElem_cons hlt, List.foldl_cons]
      by_cases hae : a = expected[ei]
      · have hstep : in_order_step expected ei a = ei + 1 := by
          unfold in_order_step
          rw [dif_pos hlt, if_pos hae]
        rw [hstep, subseq_scan, if_pos hae, ih (ei + 1) hlt]
      · have hstep : in_order_step expected ei a = ei := by
          unfold in_order_step
          rw [dif_pos hlt, if_neg hae]
        rw [hstep, subseq_scan, if_neg hae, ih ei (le_of_lt hlt),
          List.drop_eq_getElem_cons hlt]

/-- Claim C8: the in_order matcher decides exactly the subsequence
relation: it passes precisely when expected is a subsequence of
actual, order preserved and gaps permitted, with no restriction on
repeated names in expected. -/
theorem match_in_order_iff_sublist (actual expected : List String) :
    match_in_order actual expected = true ↔ List.Sublist expected actual := by
  unfold match_in_order
  by_cases hg : actual = [] ∧ expected ≠ []
  · obtain ⟨ha, he⟩ := hg
    subst ha
    rw [if_pos (And.intro rfl he)]
    simp [List.sublist_nil, he]
  · rw [if_neg hg, decide_eq_true_eq,
      foldl_in_order_step_scan expected actual 0 (Nat.zero_le _),
      List.drop_zero, subseq_scan_iff_sublist]

/-- Counterexample for Claim C5: with n_trials = 1, threshold = 1 and
one completed non-hard-fail trial of score 0, no trials remain, the
best achievable average (0 + 0)/1 = 0 is strictly below the
threshold, yet the predicate returns false; so the claimed
equivalence (true iff hard fail or best achievable average below
threshold) does not hold when no trials remain. -/
theorem c5_no_remaining_counterexample :
    should_stop_early 1 1 [⟨1, TrialStatus.failed, 0, false, [], 0, [], none⟩] = false ∧
    (¬ ∃ r ∈ [(⟨1, TrialStatus.failed, 0, false, [], 0, [], none⟩ : TrialResult)],
        r.status = TrialStatus.hard_fail) ∧
    ((([(⟨1, TrialStatus.failed, 0, false, [], 0, [], none⟩ : TrialResult)].map
        (fun r => r.score)).sum +
      ((1 : ℚ) - ([(⟨1, TrialStatus.failed, 0, false, [], 0, [], none⟩ : TrialResult)].length : ℚ)) * 1) / 1 < 1) := by
  refine ⟨?_, ?_, ?_⟩
  · simp [should_stop_early]
  · rintro ⟨r, hr, h⟩
    simp only [List.mem_singleton] at hr
    subst hr
    simp at h
  · norm_num

/-- Claim C5 amended: the early-stop predicate returns true iff some
completed trial has status hard_fail, or some trial remains and the
best achievable average (sum of completed scores plus 1.0 per
remaining trial, over n_trials) is strictly below the threshold; in
particular it returns false when no trials remain and no hard fail
occurred, even if the completed average is below the threshold. -/
theorem should_stop_early_iff (n : ℕ) (t : ℚ) (completed : List TrialResult) :
    should_stop_early n t completed = true ↔
      (∃ r ∈ completed, r.status = TrialStatus.hard_fail) ∨
      (completed.length < n ∧
        ((completed.map (fun r => r.score)).sum +
          ((n : ℚ) - (completed.length : ℚ)) * 1) / (n : ℚ) < t) := by
  unfold should_stop_early
  by_cases hany : completed.any (fun r => decide (r.status = TrialStatus.hard_fail)) = true
  · rw [if_pos hany]
    simp only [true_iff]
    obtain ⟨r, hr, hd⟩ := List.any_eq_true.mp hany
    exact Or.inl ⟨r, hr, of_decide_eq_true hd⟩
  · rw [if_neg hany]
    have hno : ¬ ∃ r ∈ completed, r.status = TrialStatus.hard_fail := by
      rintro ⟨r, hr, h⟩
      exact hany (List.any_eq_true.mpr ⟨r, hr, decide_eq_true h⟩)
    have hcast : ((((n : ℤ) - (completed.length : ℤ)) : ℤ) : ℚ) =
        (n : ℚ) - (completed.length : ℚ) := by
      push_cast
      ring
    by_cases hrem : ((n : ℤ) - (completed.length : ℤ)) ≤ 0
    · rw [if_pos hrem]
      constructor
      · intro h
        simp at h
      · rintro (h | ⟨hlen, _⟩)
        · exact absurd h hno
        · exact absurd hlen (by omega)
    · rw [if_neg hrem]
      simp only [decide_eq_true_eq, hcast]
      constructor
      · intro h
        exact Or.inr ⟨by omega, h⟩
      · rintro (h | ⟨hlen, h⟩)
        · exact absurd h hno
        · exact h

lemma retry_go_ok {α : Type} (outcome : ℕ → Except PyExc α) :
    ∀ (rem attempt ru : ℕ) (acc : List String) (r : α) (n : ℕ)
      (names : List String),
      retry_go outcome rem attempt ru acc = .ok (r, n, names) →
      ∃ k, k ≤ rem ∧ n = ru + k ∧ outcome (attempt + k) = .ok r ∧
        (∀ i < k, ∃ e, outcome (attempt + i) = .error e ∧ is_transient e = true) ∧
        names = acc ++ (List.range k).map
          (fun i => exc_name_of (outcome (attempt + i))) := by
  intro rem
  induction rem with
  | zero =>
    intro attempt ru acc r n names h
    cases ho : outcome attempt with
    | ok r0 =>
      simp only [retry_go, ho, Except.ok.injEq, Prod.mk.injEq] at h
      obtain ⟨h1, h2, h3⟩ := h
      refine ⟨0, Nat.le_refl 0, by omega, ?_, fun i hi => absurd hi (by omega), ?_⟩
      · rw [Nat.add_zero, ho, h1]
      · simp [← h3]
    | error e =>
      unfold retry_go at h
      rw [ho] at h
      simp at h
  | succ rem ih =>
    intro attempt ru acc r n names h
    cases ho : outcome attempt with
    | ok r0 =>
      simp only [retry_go, ho, Except.ok.injEq, Prod.mk.injEq] at h
      obtain ⟨h1, h2, h3⟩ := h
      refine ⟨0, Nat.zero_le _, by omega, ?_, fun i hi => absurd hi (by omega), ?_⟩
      · rw [Nat.add_zero, ho, h1]
      · simp [← h3]
    | error e =>
      unfold retry_go at h
      rw [ho] at h
      simp only [] at h
      by_cases htr : is_transient e = true
      · rw [if_pos htr] at h
        obtain ⟨k, hk, hn, hok, hprev, hnames⟩ :=
          ih (attempt + 1) (ru + 1) (acc ++ [e.typeName]) r n names h
        refine ⟨k + 1, by omega, by omega, ?_, ?_, ?_⟩
        · rw [show attempt + (k + 1) = attempt + 1 + k by omega]
          exact hok
        · intro i hi
          cases i with
          | zero => exact ⟨e, by rw [Nat.add_zero]; exact ho, htr⟩
          | succ j =>
            obtain ⟨e2, he2, ht2⟩ := hprev j (by omega)
            exact ⟨e2, by rw [show attempt + (j + 1) = attempt + 1 + j by omega]; exact he2, ht2⟩
        · rw [hnames, List.range_succ_eq_map, List.map_cons, List.map_map]
          have hhead : exc_name_of (outcome (attempt + 0)) = e.typeName := by
            rw [Nat.add_zero, ho]
            rfl
          have htail : (List.range k).map
              ((fun i => exc_name_of (outcome (attempt + i))) ∘ Nat.succ) =
              (List.range k).map (fun i => exc_name_of (outcome (attempt + 1 + i))) := by
            refine List.map_congr_left ?_
            intro x hx
            simp only [Function.comp_apply]
            rw [show attempt + Nat.succ x = attempt + 1 + x by omega]
          rw [htail, hhead]
          simp
      · rw [if_neg htr] at h
        simp at h

lemma retry_go_error {α : Type} (outcome : ℕ → Except PyExc α) :
    ∀ (rem attempt ru : ℕ) (acc : List String) (e : PyExc),
      retry_go outcome rem attempt ru acc = .error e →
      ∃ j, j ≤ rem ∧ outcome (attempt + j) = .error e ∧
        (∀ i < j, ∃ e2, outcome (attempt + i) = .error e2 ∧ is_transient e2 = true) ∧
        (is_transient e = false ∨ j = rem) := by
  intro rem
  induction rem with
  | zero =>
    intro attempt ru acc e h
    cases ho : outcome attempt with
    | ok r0 =>
      unfold retry_go at h
      rw [ho] at h
      simp at h
    | error e0 =>
      unfold retry_go at h
      rw [ho] at h
      simp only [Except.error.injEq] at h
      subst h
      exact ⟨0, Nat.le_refl 0, by rw [Nat.add_zero]; exact ho,
        fun i hi => absurd hi (by omega), Or.inr rfl⟩
  | succ rem ih =>
    intro attempt ru acc e h
    cases ho : outcome attempt with
    | ok r0 =>
      unfold retry_go at h
      rw [ho] at h
      simp at h
    | error e0 =>
      unfold retry_go at h
      rw [ho] at h
      simp only [] at h
      by_cases htr : is_transient e0 = true
      · rw [if_pos htr] at h
        obtain ⟨j, hj, herr, hprev, hlast⟩ :=
          ih (attempt + 1) (ru + 1) (acc ++ [e0.typeName]) e h
        refine ⟨j + 1, by omega, ?_, ?_, ?_⟩
        · rw [show attempt + (j + 1) = attempt + 1 + j by omega]
          exact herr
        · intro i hi
          cases i with
          | zero => exact ⟨e0, by rw [Nat.add_zero]; exact ho, htr⟩
          | succ i0 =>
            obtain ⟨e2, he2, ht2⟩ := hprev i0 (by omega)
            exact ⟨e2, by rw [show attempt + (i0 + 1) = attempt + 1 + i0 by omega]; exact he2, ht2⟩
        · rcases hlast with hl | hl
          · exact Or.inl hl
          · exact Or.inr (by omega)
      · rw [if_neg htr] at h
        simp only [Except.error.injEq] at h
        subst h
        exact ⟨0, Nat.zero_le _, by rw [Nat.add_zero]; exact ho,
          fun i hi => absurd hi (by omega),
          Or.inl (Bool.not_eq_true _ ▸ Bool.of_not_eq_true htr)⟩

/-- Claim C6: retry_with_backoff makes at most max_retries + 1
attempts; on a success it returns the successful value together with
the number of prior attempts, all of which failed with transient
errors, and the list of those transient error type names in order; it
raises exactly when the first non-transient error occurs or the last
allowed attempt fails, with all prior attempts transient failures. -/
theorem retry_with_backoff_correct {α : Type} (outcome : ℕ → Except PyExc α)
    (max_retries : ℕ) :
    (∀ (r : α) (n : ℕ) (names : List String),
      retry_with_backoff outcome max_retries = .ok (r, n, names) →
      n ≤ max_retries ∧ outcome n = .ok r ∧
        (∀ i < n, ∃ e, outcome i = .error e ∧ is_transient e = true) ∧
        names = (List.range n).map (fun i => exc_name_of (outcome i))) ∧
    (∀ e : PyExc,
      retry_with_backoff outcome max_retries = .error e →
      ∃ j, j ≤ max_retries ∧ outcome j = .error e ∧
        (∀ i < j, ∃ e2, outcome i = .error e2 ∧ is_transient e2 = true) ∧
        (is_transient e = false ∨ j = max_retries)) := by
  constructor
  · intro r n names h
    obtain ⟨k, hk, hn, hok, hprev, hnames⟩ :=
      retry_go_ok outcome max_retries 0 0 [] r n names h
    subst hn
    simp only [Nat.zero_add] at hok hnames hprev ⊢
    refine ⟨hk, hok, hprev, ?_⟩
    rw [hnames]
    simp
  · intro e h
    obtain ⟨j, hj, herr, hprev, hlast⟩ :=
      retry_go_error outcome max_retries 0 0 [] e h
    simp only [Nat.zero_add] at herr hprev
    exact ⟨j, hj, herr, hprev, hlast⟩

/-- Witness for C6: an outcome sequence whose first attempt fails
with a 429-status error and whose second attempt succeeds: one retry
is used and its transient type name is recorded. -/
theorem retry_with_backoff_correct_witness :
    (fun i => if i = 0
        then (Except.error ⟨"RateLimitError", "rate limited", false, false, some 429, none⟩ :
          Except PyExc ℕ)
        else .ok 7) 1 = .ok 7 ∧
    (1 : ℕ) ≤ 3 ∧
    (["RateLimitError"] : List String) = (List.range 1).map
      (fun i => exc_name_of ((fun i => if i = 0
        then (Except.error ⟨"RateLimitError", "rate limited", false, false, some 429, none⟩ :
          Except PyExc ℕ)
        else .ok 7) i)) := by
  have h := (retry_with_backoff_correct
      (fun i => if i = 0
        then (Except.error ⟨"RateLimitError", "rate limited", false, false, some 429, none⟩ :
          Except PyExc ℕ)
        else .ok 7) 3).1 7 1 ["RateLimitError"] (by rfl)
  exact ⟨h.2.1, h.1, h.2.2.2⟩

lemma normalize_canonical_head (rest : RawAssertion) :
    normalize_assertion (("type", Value.str "jmespath") :: rest) =
      .ok (("type", Value.str "jmespath") :: rest) := by
  rfl

/-- Claim C7: the normalizer is idempotent: whenever
normalize_assertion succeeds, running it again on the output returns
the output unchanged. -/
theorem normalize_assertion_idempotent (raw out : RawAssertion)
    (h : normalize_assertion raw = .ok out) :
    normalize_assertion out = .ok out := by
  unfold normalize_assertion at h
  cases ht : List.lookup "type" raw with
  | some tv =>
    rw [ht] at h
    cases tv with
    | str t =>
      simp only [] at h
      by_cases h1 : t = "tool_called"
      · rw [if_pos h1] at h
        unfold expand_tool_called at h
        cases htool : List.lookup "tool" raw with
        | none =>
          rw [htool] at h
          simp at h
        | some toolv =>
          rw [htool] at h
          simp only [Except.ok.injEq] at h
          subst h
          exact normalize_canonical_head _
      · rw [if_neg h1] at h
        by_cases h2 : t = "output_contains"
        · rw [if_pos h2] at h
          unfold expand_output_contains at h
          cases hv : List.lookup "value" raw with
          | none =>
            rw [hv] at h
            simp at h
          | some v =>
            rw [hv] at h
            simp only [Except.ok.injEq] at h
            subst h
            exact normalize_canonical_head _
        · rw [if_neg h2] at h
          simp only [Except.ok.injEq] at h
          subst h
          unfold normalize_assertion
          rw [ht]
          simp only []
          rw [if_neg h1, if_neg h2]
    | null =>
      simp only [Except.ok.injEq] at h
      subst h
      unfold normalize_assertion
      rw [ht]
    | bool b =>
      simp only [Except.ok.injEq] at h
      subst h
      unfold normalize_assertion
      rw [ht]
    | num q =>
      simp only [Except.ok.injEq] at h
      subst h
      unfold normalize_assertion
      rw [ht]
    | list xs =>
      simp at h
    | obj fields =>
      simp at h
  | none =>
    rw [ht] at h
    simp only [] at h
    cases hops : OPERATOR_KEYS.filter (fun k => (List.lookup k raw).isSome) with
    | nil =>
      rw [hops] at h
      simp at h
    | cons op ops =>
      cases ops with
      | nil =>
        rw [hops] at h
        simp only [Except.ok.injEq] at h
        subst h
        exact normalize_canonical_head _
      | cons op2 ops2 =>
        rw [hops] at h
        simp at h

/-- Witness for C7: normalizing an operator-key shorthand produces a
canonical dict which re-normalizes to itself. -/
theorem normalize_assertion_idempotent_witness :
    normalize_assertion
      [("type", Value.str "jmespath"),
       ("expression", Value.str "response.content"),
       ("operator", Value.str "contains"),
       ("value", Value.str "hi"),
       ("weight", Value.num 1),
       ("required", Value.bool false)] =
    .ok
      [("type", Value.str "jmespath"),
       ("expression", Value.str "response.content"),
       ("operator", Value.str "contains"),
       ("value", Value.str "hi"),
       ("weight", Value.num 1),
       ("required", Value.bool false)] := by
  exact normalize_assertion_idempotent
    [("path", Value.str "response.content"), ("contains", Value.str "hi")]
    [("type", Value.str "jmespath"),
     ("expression", Value.str "response.content"),
     ("operator", Value.str "contains"),
     ("value", Value.str "hi"),
     ("weight", Value.num 1),
     ("required", Value.bool false)]
    (by rfl)

lemma per_criterion_step_not_mem (v : Vote) (name : String) :
    ∀ (cs : List Criterion) (d : String → List ℚ),
      name ∉ cs.map Criterion.name →
      per_criterion_step cs v d name = d name := by
  intro cs
  induction cs with
  | nil => intro d _; rfl
  | cons c cs ih =>
    intro d h
    simp only [List.map_cons, List.mem_cons, not_or] at h
    unfold per_criterion_step
    cases hv : v c.name with
    | none =>
      exact ih _ h.2
    | some s =>
      simp only []
      rw [ih _ h.2]
      simp [h.1]

lemma per_criterion_step_mem (v : Vote) (name : String) :
    ∀ (cs : List Criterion) (d : String → List ℚ),
      (cs.map Criterion.name).Nodup → name ∈ cs.map Criterion.name →
      per_criterion_step cs v d name = d name ++ (v name).toList := by
  intro cs
  induction cs with
  | nil =>
    intro d _ hmem
    simp at hmem
  | cons c cs ih =>
    intro d hnd hmem
    simp only [List.map_cons, List.nodup_cons] at hnd
    obtain ⟨hc, hnd2⟩ := hnd
    simp only [List.map_cons, List.mem_cons] at hmem
    unfold per_criterion_step
    rcases hmem with heq | hmem2
    · subst heq
      cases hv : v c.name with
      | none =>
        simp only []
        rw [per_criterion_step_not_mem v c.name cs d hc]
        simp [hv]
      | some s =>
        simp only []
        rw [per_criterion_step_not_mem v c.name cs _ hc]
        simp [hv]
    · have hne : name ≠ c.name := fun hx => hc (hx ▸ hmem2)
      cases hv : v c.name with
      | none =>
        exact ih _ hnd2 hmem2
      | some s =>
        simp only []
        rw [ih _ hnd2 hmem2]
        simp [hne]

lemma per_criterion_fold_collect (criteria : List Criterion) (name : String)
    (hnd : (criteria.map Criterion.name).Nodup)
    (hmem : name ∈ criteria.map Criterion.name) :
    ∀ (votes : List Vote) (d : String → List ℚ),
      per_criterion_fold criteria votes d name =
        d name ++ votes.filterMap (fun v => v name) := by
  intro votes
  induction votes with
  | nil =>
    intro d
    simp [per_criterion_fold]
  | cons v vs ih =>
    intro d
    unfold per_criterion_fold
    rw [ih (per_criterion_step criteria v d),
      per_criterion_step_mem v name criteria d hnd hmem,
      List.filterMap_cons]
    cases hv : v name with
    | none => simp [hv]
    | some s => simp [hv]

lemma per_criterion_of_collect (votes : List Vote) (criteria : List Criterion)
    (name : String) (hnd : (criteria.map Criterion.name).Nodup)
    (hmem : name ∈ criteria.map Criterion.name) :
    per_criterion_of votes criteria name = votes.filterMap (fun v => v name) := by
  unfold per_criterion_of
  rw [per_criterion_fold_collect criteria name hnd hmem votes (fun _ => [])]
  simp

/-- Claim C4: aggregate_k_votes returns (0, false, []) for zero
parsed votes, which the judge evaluator reports as a failed assertion
of score 0; for a non-empty vote list, distinct criterion names and
positive total criterion weight, it reports per criterion the median
of the scores present for it across votes (0 when none), the overall
score as the criterion-weight-weighted mean of those medians, and
passed = true iff a strict majority of the received votes have their
own weighted mean, missing criteria counted as 0, at or above the
threshold. -/
theorem aggregate_k_votes_correct (votes : List Vote)
    (criteria : List Criterion) (t : ℚ) :
    (votes = [] → aggregate_k_votes votes criteria t = (0, false, [])) ∧
    ((criteria.map Criterion.name).Nodup → votes ≠ [] →
      0 < (criteria.map (fun c => c.weight)).sum →
      ((aggregate_k_votes votes criteria t).2.2 = criteria.map (fun c =>
          (c.name,
           if votes.filterMap (fun v => v c.name) = [] then 0
             else statistics_median (votes.filterMap (fun v => v c.name)),
           votes.filterMap (fun v => v c.name), c.weight)) ∧
       (aggregate_k_votes votes criteria t).1 =
         (criteria.map (fun c =>
           (if votes.filterMap (fun v => v c.name) = [] then 0
             else statistics_median (votes.filterMap (fun v => v c.name))) * c.weight)).sum /
           (criteria.map (fun c => c.weight)).sum ∧
       ((aggregate_k_votes votes criteria t).2.1 = true ↔
         votes.length < 2 * votes.countP (fun v =>
           decide (t ≤ (criteria.map (fun c => (v c.name).getD 0 * c.weight)).sum /
             (criteria.map (fun c => c.weight)).sum))))) := by
  constructor
  · intro h
    subst h
    rfl
  · intro hnd hne hw
    have hwne : (criteria.map (fun c => c.weight)).sum ≠ 0 := ne_of_gt hw
    have hmed : ∀ c ∈ criteria, criterion_median votes criteria c.name =
        (if votes.filterMap (fun v => v c.name) = [] then 0
         else statistics_median (votes.filterMap (fun v => v c.name))) := by
      intro c hc
      unfold criterion_median
      rw [per_criterion_of_collect votes criteria c.name hnd
        (List.mem_map_of_mem _ hc)]
    obtain ⟨v0, vs0, rfl⟩ : ∃ v0 vs0, votes = v0 :: vs0 := by
      cases votes with
      | nil => exact absurd rfl hne
      | cons a b => exact ⟨a, b, rfl⟩
    have hagg : aggregate_k_votes (v0 :: vs0) criteria t =
        (if (criteria.map (fun c => c.weight)).sum = 0 then 0
         else (criteria.map
             (fun c => criterion_median (v0 :: vs0) criteria c.name * c.weight)).sum /
           (criteria.map (fun c => c.weight)).sum,
         decide ((((v0 :: vs0).length : ℚ) / 2) <
           (((v0 :: vs0).filter (judge_vote_passes criteria t)).length : ℚ)),
         criteria.map (fun c =>
           (c.name, criterion_median (v0 :: vs0) criteria c.name,
            per_criterion_of (v0 :: vs0) criteria c.name, c.weight))) := rfl
    refine ⟨?_, ?_, ?_⟩
    · rw [hagg]
      refine List.map_congr_left ?_
      intro c hc
      rw [hmed c hc, per_criterion_of_collect _ criteria c.name hnd
        (List.mem_map_of_mem _ hc)]
    · rw [hagg]
      simp only []
      rw [if_neg hwne]
      congr 1
      refine congrArg List.sum (List.map_congr_left ?_)
      intro c hc
      rw [hmed c hc]
    · rw [hagg]
      simp only [decide_eq_true_eq]
      have hfilter : ((v0 :: vs0).filter (judge_vote_passes criteria t)).length =
          (v0 :: vs0).countP (fun v =>
            decide (t ≤ (criteria.map (fun c => (v c.name).getD 0 * c.weight)).sum /
              (criteria.map (fun c => c.weight)).sum)) := by
        rw [← List.countP_eq_length_filter]
        refine List.countP_congr ?_
        intro v hv
        unfold judge_vote_passes
        rw [if_pos hw]
        have htot : vote_weighted_total criteria v =
            (criteria.map (fun c => (v c.name).getD 0 * c.weight)).sum := by
          unfold vote_weighted_total
          refine congrArg List.sum (List.map_congr_left ?_)
          intro c hc
          cases hvc : v c.name with
          | none => simp [hvc]
          | some s => simp [hvc]
        rw [htot]
      rw [hfilter]
      constructor
      · intro h
        rw [div_lt_iff₀ (by norm_num : (0:ℚ) < 2)] at h
        have h2 : ((v0 :: vs0).length : ℚ) <
            2 * ((v0 :: vs0).countP (fun v =>
              decide (t ≤ (criteria.map (fun c => (v c.name).getD 0 * c.weight)).sum /
                (criteria.map (fun c => c.weight)).sum)) : ℚ) := by
          linarith
        exact_mod_cast h2
      · intro h
        rw [div_lt_iff₀ (by norm_num : (0:ℚ) < 2)]
        have h2 : ((v0 :: vs0).length : ℚ) <
            2 * ((v0 :: vs0).countP (fun v =>
              decide (t ≤ (criteria.map (fun c => (v c.name).getD 0 * c.weight)).sum /
                (criteria.map (fun c => c.weight)).sum)) : ℚ) := by
          exact_mod_cast h
        linarith

/-- Witness for C4: at the worked three-vote, two-criterion example
the overall score is the weight-weighted mean of the per-criterion
medians. -/
theorem aggregate_k_votes_correct_witness :
    (aggregate_k_votes wJudgeVotes wJudgeCriteria (4/5)).1 =
      (wJudgeCriteria.map (fun c =>
        (if wJudgeVotes.filterMap (fun v => v c.name) = [] then 0
          else statistics_median (wJudgeVotes.filterMap (fun v => v c.name))) * c.weight)).sum /
        (wJudgeCriteria.map (fun c => c.weight)).sum := by
  have h := (aggregate_k_votes_correct wJudgeVotes wJudgeCriteria (4/5)).2
    (by simp [wJudgeCriteria]) (by simp [wJudgeVotes]) (by norm_num [wJudgeCriteria])
  exact h.2.1

lemma tool_result_messages_roles (mock_responses : List (String × String)) :
    ∀ (tcs : List ToolCallRes) (msgs : List Message),
      tool_result_messages mock_responses tcs = .ok msgs →
      ∀ m ∈ msgs, m.role = "tool_result" := by
  intro tcs
  induction tcs with
  | nil =>
    intro msgs h m hm
    unfold tool_result_messages at h
    simp only [Except.ok.injEq] at h
    subst h
    simp at hm
  | cons tc tcs ih =>
    intro msgs h m hm
    unfold tool_result_messages at h
    cases hl : List.lookup tc.name mock_responses with
    | none =>
      rw [hl] at h
      simp at h
    | some mc =>
      rw [hl] at h
      simp only [] at h
      cases hr : tool_result_messages mock_responses tcs with
      | error e =>
        rw [hr] at h
        simp at h
      | ok rest =>
        rw [hr] at h
        simp only [Except.ok.injEq] at h
        subst h
        rcases List.mem_cons.mp hm with heq | hmem
        · subst heq
          rfl
        · exact ih rest hr m hmem

lemma run_loop_preserves (adapter : List Message → AdapterTurnResult)
    (mock_responses : List (String × String)) :
    ∀ (fuel : ℕ) (st st' : RunLoopState),
      run_loop adapter mock_responses fuel st = .ok st' →
      (st.turn_count = assistant_count st.messages →
        st'.turn_count = assistant_count st'.messages) ∧
      ((∀ msgs, (adapter msgs).usage.total_tokens =
          (adapter msgs).usage.input_tokens + (adapter msgs).usage.output_tokens) →
        st.usage.total_tokens = st.usage.input_tokens + st.usage.output_tokens →
        st'.usage.total_tokens = st'.usage.input_tokens + st'.usage.output_tokens) := by
  intro fuel
  induction fuel with
  | zero =>
    intro st st' h
    unfold run_loop at h
    simp only [Except.ok.injEq] at h
    subst h
    exact ⟨id, fun _ => id⟩
  | succ fuel ih =>
    intro st st' h
    unfold run_loop at h
    by_cases hemp : (adapter st.messages).tool_calls.isEmpty
    · rw [if_pos hemp] at h
      simp only [Except.ok.injEq] at h
      subst h
      constructor
      · intro hc
        simp only [assistant_count] at hc ⊢
        simp [List.countP_append, List.countP_cons]
        omega
      · intro hcons ht
        have hc2 := hcons st.messages
        dsimp only
        omega
    · rw [if_neg hemp] at h
      cases htm : tool_result_messages mock_responses (adapter st.messages).tool_calls with
      | error e =>
        rw [htm] at h
        simp at h
      | ok trs =>
        rw [htm] at h
        have hnext := ih _ _ h
        constructor
        · intro hc
          refine hnext.1 ?_
          have htrs : trs.countP (fun m => decide (m.role = "assistant")) = 0 := by
            rw [List.countP_eq_zero]
            intro m hm
            have hrole := tool_result_messages_roles mock_responses _ trs htm m hm
            simp [hrole]
          simp only [assistant_count] at hc ⊢
          simp [List.countP_append, List.countP_cons, htrs]
          omega
        · intro hcons ht
          refine hnext.2 hcons ?_
          have hc2 := hcons st.messages
          dsimp only
          omega

/-- Counterexample for Claim C9: an adapter turn reporting usage
(input 1, output 1, total 5) yields a trace with total_tokens 5 but
input_tokens + output_tokens = 2: the runner accumulates the three
counters independently and does not enforce total = input + output
for arbitrary adapter behaviour. -/
theorem c9_token_counterexample :
    ((scenario_runner_run
        (fun _ => (⟨some "Hi", [], ⟨1, 1, 5⟩, "stop"⟩ : AdapterTurnResult))
        none "Hello" [] 10 "gpt-4o").map
      (fun t => (t.total_tokens, t.input_tokens + t.output_tokens))) =
      .ok (5, 2) ∧ (5 : ℕ) ≠ 2 := by
  constructor
  · rfl
  · decide

/-- Claim C9 amended: every trace returned by ScenarioRunner.run has
turn_count equal to the number of assistant-role messages, for every
adapter behaviour; total_tokens equals input_tokens + output_tokens
provided every adapter turn itself reports total = input + output,
and can differ otherwise since the three counters are accumulated
independently from the adapter-reported values. -/
theorem scenario_runner_trace_invariants
    (adapter : List Message → AdapterTurnResult)
    (system_prompt : Option String) (prompt : String)
    (mock_responses : List (String × String)) (max_turns : ℕ)
    (model : String) (t : RunTrace)
    (h : scenario_runner_run adapter system_prompt prompt mock_responses
      max_turns model = .ok t) :
    t.turn_count = assistant_count t.messages ∧
    ((∀ msgs, (adapter msgs).usage.total_tokens =
        (adapter msgs).usage.input_tokens + (adapter msgs).usage.output_tokens) →
      t.total_tokens = t.input_tokens + t.output_tokens) := by
  unfold scenario_runner_run at h
  cases hrun : run_loop adapter mock_responses max_turns
      (initial_state system_prompt prompt) with
  | error e =>
    rw [hrun] at h
    simp at h
  | ok st =>
    rw [hrun] at h
    simp only [Except.ok.injEq] at h
    subst h
    have hinit : (initial_state system_prompt prompt).turn_count =
        assistant_count (initial_state system_prompt prompt).messages := by
      unfold initial_state
      cases system_prompt with
      | none => simp [assistant_count]
      | some sp =>
        by_cases hsp : sp = ""
        · simp [assistant_count, hsp]
        · simp [assistant_count, hsp]
    have hpres := run_loop_preserves adapter mock_responses max_turns _ st hrun
    exact ⟨hpres.1 hinit, fun hcons => hpres.2 hcons rfl⟩

/-- Witness for the amended C9: on a concrete consistent adapter the
returned trace satisfies both invariants. -/
theorem scenario_runner_trace_invariants_witness :
    witness_c9_trace.turn_count = assistant_count witness_c9_trace.messages ∧
    witness_c9_trace.total_tokens =
      witness_c9_trace.input_tokens + witness_c9_trace.output_tokens := by
  have hrun : scenario_runner_run consistent_adapter none "Hello" [] 10 "gpt-4o" =
      .ok witness_c9_trace := by rfl
  have h := scenario_runner_trace_invariants consistent_adapter none "Hello" [] 10
    "gpt-4o" witness_c9_trace hrun
  exact ⟨h.1, h.2 (fun msgs => rfl)⟩

/-- Claim C10: whenever the retry-wrapped execution raises, the trial
result has status infra_error, score 0, passed false, retries_used
set to the configured max_retries regardless of the retries actually
performed, and transient_error_types equal to the singleton list of
the final exception type name even when that exception was not
transient, discarding the names of the transient errors actually
retried. -/
theorem execute_single_trial_infra_error (n mr : ℕ)
    (run_outcome : ℕ → Except PyExc RunTrace)
    (evaluate_results : RunTrace → List EvalResult) (t : ℚ) (e : PyExc)
    (h : retry_with_backoff run_outcome mr = .error e) :
    execute_single_trial n mr run_outcome evaluate_results t =
      { trial_number := n, status := TrialStatus.infra_error, score := 0,
        passed := false, eval_results := [], retries_used := mr,
        transient_error_types := [e.typeName],
        error_message := some e.message } := by
  unfold execute_single_trial
  rw [h]

/-- Witness for C10: with max_retries = 3 the run above fails after 2
actual retries on the non-transient third attempt, yet the trial
records retries_used = 3 and only the final ValueError name. -/
theorem execute_single_trial_infra_error_witness :
    (execute_single_trial 1 3 w10_outcome (fun _ => []) (1/2)).retries_used = 3 ∧
    (execute_single_trial 1 3 w10_outcome (fun _ => []) (1/2)).transient_error_types =
      ["ValueError"] ∧
    (execute_single_trial 1 3 w10_outcome (fun _ => []) (1/2)).status =
      TrialStatus.infra_error := by
  have h : retry_with_backoff w10_outcome 3 =
      .error ⟨"ValueError", "bad payload", false, false, none, none⟩ := by rfl
  have hres := execute_single_trial_infra_error 1 3 w10_outcome (fun _ => []) (1/2) _ h
  rw [hres]
  exact ⟨rfl, rfl, rfl⟩
